import Mathlib

/-!
# nodeChat server — shallow embedding

A shallow embedding of the nodeChat Socket.IO server (the variant with UTM
attribution and the hot-nodes endpoint).  The four MongoDB collections become
lists of records inside a `Db` state; every socket event handler becomes a
pure function from a `Db`, an event payload and the current time to a new
`Db` together with the list of replies emitted to the requesting socket.
Timestamps are integers (milliseconds), dwell durations and averages are
rationals, and hotness scores are reals (JavaScript `Math.exp`/arithmetic is
modelled by exact real arithmetic).  Client-absent or JS-falsy fields are
modelled as `Option` values, with the empty string standing for the falsy
non-missing case.
-/

namespace NodeChat

/-! ## Data model (the four mongoose schemas) -/

/-- A document of the `users` collection (`userSchema`). -/
structure UserR where
  id : Nat
  localId : String
  nickname : String
  createdAt : Int
  lastSeenAt : Int
  utmSource : Option String := none
  utmMedium : Option String := none
  utmCampaign : Option String := none
  utmContent : Option String := none
  utmTerm : Option String := none
deriving DecidableEq

/-- A document of the `nodes` collection (`nodeSchema`); a node is a chat room. -/
structure NodeR where
  id : Nat
  roomKey : String
  createdAt : Int
  creatorId : Option Nat := none
  lastActivityAt : Int
  messageCount : Nat := 0
  visitCount : Nat := 0
deriving DecidableEq

/-- A document of the `messages` collection (`messageSchema`). -/
structure MessageR where
  id : Nat
  nodeId : Nat
  userId : Nat
  text : String
  createdAt : Int
deriving DecidableEq

/-- A document of the `transitions` collection (`transitionSchema`). -/
structure TransitionR where
  id : Nat
  userId : Nat
  fromNodeId : Option Nat
  toNodeId : Nat
  transitionType : Option String
  createdAt : Int
  duration : Rat
deriving DecidableEq

/-- The whole store: the four collections plus a fresh-ObjectId counter. -/
structure Db where
  users : List UserR := []
  nodes : List NodeR := []
  messages : List MessageR := []
  transitions : List TransitionR := []
  nextId : Nat := 0
deriving DecidableEq

/-- One entry of the `history` reply (`formattedHistory`). -/
structure HistoryItem where
  text : String
  userId : Nat
  senderNickname : String
  createdAt : Int
deriving DecidableEq

/-- The events the server emits back to a socket. -/
inductive Reply where
  | sessionEstablished (userId : Nat) (nickname : String)
  | history (items : List HistoryItem)
  | receiveMessage (text : String) (userId : Nat) (senderNickname : String) (createdAt : Int)
  | recommendationResult (recommendedKey : Option String)
deriving DecidableEq

/-! ## Generic store helpers

`findOneAndUpdate` / `updateOne` touch the first document matching the
filter; `updateFirst` is that primitive on lists. -/

/-- Apply `f` to the first element satisfying `p`, leaving the rest alone. -/
def updateFirst (p : α → Bool) (f : α → α) : List α → List α
  | [] => []
  | x :: xs => if p x then f x :: xs else x :: updateFirst p f xs

theorem length_updateFirst (p : α → Bool) (f : α → α) :
    ∀ l : List α, (updateFirst p f l).length = l.length := by
  intro l
  induction l with
  | nil => rfl
  | cons x xs ih =>
    by_cases h : p x = true
    · simp [updateFirst, h]
    · simp [updateFirst, h, ih]

theorem find?_updateFirst_of_disjoint {p q : α → Bool} {f : α → α}
    (hpq : ∀ a, p a = true → q a = false) (hfq : ∀ a, q (f a) = q a) :
    ∀ l : List α, (updateFirst p f l).find? q = l.find? q := by
  intro l
  induction l with
  | nil => rfl
  | cons x xs ih =>
    by_cases h : p x = true
    · have hqx : q x = false := hpq x h
      have hqfx : q (f x) = false := by rw [hfq]; exact hqx
      simp [updateFirst, h, List.find?, hqx, hqfx]
    · by_cases hq : q x = true
      · simp [updateFirst, h, List.find?, hq]
      · simp only [Bool.not_eq_true] at hq
        simp [updateFirst, h, List.find?, hq, ih]

theorem find?_updateFirst_self {p : α → Bool} {f : α → α}
    (hf : ∀ a, p (f a) = p a) :
    ∀ l : List α, (updateFirst p f l).find? p = (l.find? p).map f := by
  intro l
  induction l with
  | nil => rfl
  | cons x xs ih =>
    by_cases h : p x = true
    · have hfx : p (f x) = true := by rw [hf]; exact h
      simp [updateFirst, h, List.find?, hfx]
    · simp only [Bool.not_eq_true] at h
      simp [updateFirst, h, List.find?, ih]

theorem length_filter_updateFirst {p q : α → Bool} {f : α → α}
    (hq : ∀ a, q (f a) = q a) :
    ∀ l : List α, ((updateFirst p f l).filter q).length = (l.filter q).length := by
  intro l
  induction l with
  | nil => rfl
  | cons x xs ih =>
    by_cases h : p x = true
    · cases hqx : q x with
      | true =>
        have : q (f x) = true := by rw [hq]; exact hqx
        simp [updateFirst, h, List.filter, this, hqx]
      | false =>
        have : q (f x) = false := by rw [hq]; exact hqx
        simp [updateFirst, h, List.filter, this, hqx]
    · by_cases hqx : q x = true
      · simp [updateFirst, h, List.filter, hqx, ih]
      · simp only [Bool.not_eq_true] at hqx
        simp [updateFirst, h, List.filter, hqx, ih]

/-- The found element satisfies the search predicate. -/
theorem find?_prop {p : α → Bool} {l : List α} {a : α} (h : l.find? p = some a) :
    p a = true :=
  List.find?_some h

/-- JS truthiness of an optional string field: present and non-empty. -/
def truthyS : Option String → Bool
  | none => false
  | some s => !(s == "")

/-! ## Identity registry (`userSetup` handler) -/

/-- The optional `utm` payload object of a `userSetup` event. -/
structure Utm where
  source : Option String := none
  medium : Option String := none
  campaign : Option String := none
  content : Option String := none
  term : Option String := none
deriving DecidableEq

/-- `if (utm && utm.f) updateFields.utmF = utm.f` merged with `$set`
semantics: a supplied truthy field overwrites, anything else keeps the
stored value. -/
def updField (utm : Option Utm) (f : Utm → Option String) (old : Option String) :
    Option String :=
  match utm with
  | none => old
  | some t => if truthyS (f t) then f t else old

/-- The `$set` part of the `userSetup` upsert: always overwrite `nickname`
and `lastSeenAt`, overwrite each UTM field only when supplied truthy. -/
def applyUserUpdate (u : UserR) (nickname : String) (now : Int) (utm : Option Utm) :
    UserR :=
  { u with
    nickname := nickname
    lastSeenAt := now
    utmSource := updField utm (fun t => t.source) u.utmSource
    utmMedium := updField utm (fun t => t.medium) u.utmMedium
    utmCampaign := updField utm (fun t => t.campaign) u.utmCampaign
    utmContent := updField utm (fun t => t.content) u.utmContent
    utmTerm := updField utm (fun t => t.term) u.utmTerm }

/-- The document skeleton inserted by the upsert's `$setOnInsert`
(`localId` and `createdAt`; every other field comes from the `$set`
part or the schema defaults). -/
def freshUser (i : Nat) (localId : String) (now : Int) : UserR :=
  { id := i, localId := localId, nickname := "", createdAt := now, lastSeenAt := now }

def findUserByLocalId (db : Db) (tok : String) : Option UserR :=
  db.users.find? (fun u => u.localId == tok)

def findUserById (db : Db) (i : Nat) : Option UserR :=
  db.users.find? (fun u => u.id == i)

/-- The `userSetup` handler: `User.findOneAndUpdate({localId}, {$set …,
$setOnInsert …}, {upsert: true, new: true})` followed by the
`sessionEstablished` reply. -/
def userSetup (db : Db) (localId nickname : String) (utm : Option Utm) (now : Int) :
    Db × Reply :=
  match findUserByLocalId db localId with
  | some u =>
    let u' := applyUserUpdate u nickname now utm
    ({ db with
        users := updateFirst (fun v => v.localId == localId)
          (fun v => applyUserUpdate v nickname now utm) db.users },
     Reply.sessionEstablished u'.id u'.nickname)
  | none =>
    let u := applyUserUpdate (freshUser db.nextId localId now) nickname now utm
    ({ db with users := db.users ++ [u], nextId := db.nextId + 1 },
     Reply.sessionEstablished u.id u.nickname)

/-- Number of stored users carrying a given local token. -/
def countLocal (db : Db) (tok : String) : Nat :=
  (db.users.filter (fun u => u.localId == tok)).length

theorem applyUserUpdate_localId (u : UserR) (n : String) (t : Int) (utm : Option Utm) :
    (applyUserUpdate u n t utm).localId = u.localId := rfl

theorem applyUserUpdate_id (u : UserR) (n : String) (t : Int) (utm : Option Utm) :
    (applyUserUpdate u n t utm).id = u.id := rfl

theorem applyUserUpdate_createdAt (u : UserR) (n : String) (t : Int) (utm : Option Utm) :
    (applyUserUpdate u n t utm).createdAt = u.createdAt := rfl

/-- After a `userSetup`, the record found for the token is the `$set`-updated
previous record, or the updated `$setOnInsert` skeleton when none existed. -/
theorem userSetup_find (db : Db) (tok n : String) (utm : Option Utm) (t : Int) :
    findUserByLocalId (userSetup db tok n utm t).1 tok =
      some (applyUserUpdate ((findUserByLocalId db tok).getD (freshUser db.nextId tok t))
        n t utm) := by
  unfold userSetup
  cases hfind : findUserByLocalId db tok with
  | some u =>
    simp only [findUserByLocalId] at hfind ⊢
    rw [find?_updateFirst_self (fun a => by rw [applyUserUpdate_localId]), hfind]
    rfl
  | none =>
    simp only [findUserByLocalId] at hfind ⊢
    rw [List.find?_append, hfind]
    simp only [Option.none_orElse, Option.getD]
    have : (applyUserUpdate (freshUser db.nextId tok t) n t utm).localId = tok := rfl
    simp [List.find?, this]

/-- A `userSetup` leaves the token's record count at `max previous 1`:
it creates exactly one record when none existed and none otherwise. -/
theorem userSetup_count (db : Db) (tok n : String) (utm : Option Utm) (t : Int) :
    countLocal (userSetup db tok n utm t).1 tok = max (countLocal db tok) 1 := by
  unfold userSetup
  cases hfind : findUserByLocalId db tok with
  | some u =>
    simp only [countLocal]
    rw [length_filter_updateFirst (fun a => by rw [applyUserUpdate_localId])]
    have hu : u ∈ db.users ∧ (u.localId == tok) = true := by
      unfold findUserByLocalId at hfind
      have hp := find?_prop hfind
      exact ⟨List.mem_of_find?_eq_some hfind, hp⟩
    have h1 : 1 ≤ (db.users.filter (fun v => v.localId == tok)).length := by
      have : u ∈ db.users.filter (fun v => v.localId == tok) :=
        List.mem_filter.mpr hu
      exact List.length_pos.mpr (List.ne_nil_of_mem this)
    omega
  | none =>
    simp only [countLocal]
    have h0 : (db.users.filter (fun v => v.localId == tok)).length = 0 := by
      rw [List.length_eq_zero, List.filter_eq_nil_iff]
      intro a ha
      have := List.find?_eq_none.mp hfind a ha
      simpa using this
    rw [List.filter_append]
    have : (applyUserUpdate (freshUser db.nextId tok t) n t utm).localId = tok := rfl
    simp [List.filter, this, h0]

/-! ## Room directory and transition log (`joinNodeAndLogTransition` handler) -/

def findNode (db : Db) (key : String) : Option NodeR :=
  db.nodes.find? (fun n => n.roomKey == key)

def findNodeById (db : Db) (i : Nat) : Option NodeR :=
  db.nodes.find? (fun n => n.id == i)

/-- Source-room resolution: `Node.findOneAndUpdate({roomKey}, {$setOnInsert:
{roomKey}}, {upsert, new})` — an existing room is returned untouched; a
missing one is created with the schema defaults. -/
def resolveSourceRoom (db : Db) (key : String) (now : Int) : NodeR × Db :=
  match findNode db key with
  | some n => (n, db)
  | none =>
    let n : NodeR := { id := db.nextId, roomKey := key, createdAt := now,
                       lastActivityAt := now }
    (n, { db with nodes := db.nodes ++ [n], nextId := db.nextId + 1 })

/-- The `$inc {visitCount: 1}, $set {lastActivityAt: now}` update applied to
an existing destination room. -/
def bumpVisit (now : Int) (m : NodeR) : NodeR :=
  { m with visitCount := m.visitCount + 1, lastActivityAt := now }

/-- The destination room inserted by the upsert when the key is new:
`$setOnInsert {roomKey, creatorId}` plus the applied `$inc`/`$set` and the
schema defaults. -/
def freshDestNode (i : Nat) (key : String) (creator : Nat) (now : Int) : NodeR :=
  { id := i, roomKey := key, createdAt := now, creatorId := some creator,
    lastActivityAt := now, visitCount := 1 }

/-- Destination-room resolution: `$inc visitCount`, `$set lastActivityAt`,
`$setOnInsert {roomKey, creatorId}` under upsert semantics. -/
def resolveDestRoom (db : Db) (key : String) (creator : Nat) (now : Int) : NodeR × Db :=
  match findNode db key with
  | some n =>
    (bumpVisit now n,
     { db with nodes := updateFirst (fun m => m.roomKey == key) (bumpVisit now) db.nodes })
  | none =>
    (freshDestNode db.nextId key creator now,
     { db with nodes := db.nodes ++ [freshDestNode db.nextId key creator now],
               nextId := db.nextId + 1 })

/-- `const fromNode = fromNodeKey ? await Node.findOneAndUpdate(…) : null`. -/
def resolveFrom (db : Db) (fromNodeKey : Option String) (now : Int) :
    Option NodeR × Db :=
  match fromNodeKey with
  | some fromKey =>
    if fromKey = "" then (none, db)
    else
      let r := resolveSourceRoom db fromKey now
      (some r.1, r.2)
  | none => (none, db)

/-! ## Message store (`Message.find … sort … limit`, `sendMessage` handler) -/

/-- The ascending `createdAt` comparator of `.sort({createdAt: 1})`. -/
def msgLE (a b : MessageR) : Bool := decide (a.createdAt ≤ b.createdAt)

/-- `Message.find({nodeId}).sort({createdAt: 1})`: the room's messages in
ascending time order (a stable sort of the stored order). -/
def roomMessagesAsc (db : Db) (nodeId : Nat) : List MessageR :=
  (db.messages.filter (fun m => m.nodeId == nodeId)).mergeSort msgLE

/-- `Message.find({nodeId}).sort({createdAt: 1}).limit(limit)`; the handler
always calls it with `limit = 50`. -/
def fetchHistory (db : Db) (nodeId limit : Nat) : List MessageR :=
  (roomMessagesAsc db nodeId).take limit

/-- One `{text, userId, senderNickname, createdAt}` history entry; a
dangling sender makes the `populate`d `msg.userId` null, so reading
`msg.userId._id` throws. -/
def formatHistoryItem (db : Db) (m : MessageR) : Option HistoryItem :=
  (findUserById db m.userId).map (fun u =>
    { text := m.text, userId := m.userId, senderNickname := u.nickname,
      createdAt := m.createdAt })

/-- `history.map(msg => …)` inside the handler's `try`: the first dangling
sender throws, the catch swallows it and no `history` reply is emitted —
`none` models that aborted mapping. -/
def formatHistory (db : Db) (msgs : List MessageR) : Option (List HistoryItem) :=
  msgs.mapM (formatHistoryItem db)

/-- The `joinNodeAndLogTransition` payload. -/
structure JoinPayload where
  userId : Option Nat
  fromNodeKey : Option String := none
  toNodeKey : Option String
  duration : Rat := 0
  transitionType : Option String := none
deriving DecidableEq

/-- The `joinNodeAndLogTransition` handler: guard on `userId`/`toNodeKey`,
resolve the source and destination rooms, append the Transition row, reply
with the room's history (oldest 50). -/
def joinNodeAndLogTransition (db : Db) (ev : JoinPayload) (now : Int) :
    Db × List Reply :=
  match ev.userId, ev.toNodeKey with
  | some uid, some toKey =>
    if toKey = "" then (db, [])
    else
      let fr := resolveFrom db ev.fromNodeKey now
      let dest := resolveDestRoom fr.2 toKey uid now
      let t : TransitionR :=
        { id := dest.2.nextId, userId := uid,
          fromNodeId := fr.1.map (fun n => n.id), toNodeId := dest.1.id,
          transitionType := ev.transitionType, createdAt := now,
          duration := ev.duration }
      let db3 :=
        { dest.2 with transitions := dest.2.transitions ++ [t],
                      nextId := dest.2.nextId + 1 }
      (db3,
       match formatHistory db3 (fetchHistory db3 dest.1.id 50) with
       | some items => [Reply.history items]
       | none => [])
  | _, _ => (db, [])

/-- The `sendMessage` payload. -/
structure MessagePayload where
  userId : Option Nat
  nodeKey : Option String
  text : String
deriving DecidableEq

/-- The `$inc {messageCount: 1}, $set {lastActivityAt: now}` statistics
update of `sendMessage`. -/
def bumpMessage (now : Int) (m : NodeR) : NodeR :=
  { m with messageCount := m.messageCount + 1, lastActivityAt := now }

/-- The `sendMessage` handler: look the room up (never create it), guard on
`userId`/room existence, persist the message, bump the room counters, then
broadcast — the broadcast is skipped when the sender lookup fails (the
original code throws on `user._id` after the writes already happened).
When `nodeKey` is absent, Mongoose strips the `undefined` filter property,
so `Node.findOne({roomKey: undefined})` is `findOne({})` and resolves to the
first stored room. -/
def sendMessage (db : Db) (ev : MessagePayload) (now : Int) : Db × List Reply :=
  let node : Option NodeR :=
    match ev.nodeKey with
    | some k => findNode db k
    | none => db.nodes.head?
  match ev.userId, node with
  | some uid, some n =>
    let msg : MessageR :=
      { id := db.nextId, nodeId := n.id, userId := uid,
        text := ev.text, createdAt := now }
    let db1 := { db with messages := db.messages ++ [msg], nextId := db.nextId + 1 }
    let db2 := { db1 with nodes := updateFirst (fun m => m.id == n.id) (bumpMessage now) db1.nodes }
    match findUserById db2 uid with
    | some u => (db2, [Reply.receiveMessage msg.text u.id u.nickname now])
    | none => (db2, [])
  | _, _ => (db, [])

/-! ## Recommendation (`getRecommendation` handler) -/

/-- The `getRecommendation` handler of the full server variant:
`$match {roomKey: {$ne: roomKey}}` then `$sample {size: 1}`.  The random
sample is modelled by an arbitrary index `pick` into the candidate list;
an empty candidate set is answered with `recommendedKey: null`. -/
def getRecommendation (db : Db) (roomKey : String) (pick : Nat) : Reply :=
  let cands := db.nodes.filter (fun n => !(n.roomKey == roomKey))
  match cands with
  | [] => Reply.recommendationResult none
  | c :: cs =>
    Reply.recommendationResult
      (some (((c :: cs).getD (pick % (c :: cs).length) c).roomKey))

/-! ## Hot-nodes endpoint (`GET hot-nodes`) -/

/-- The ECMAScript whitespace set used by `parseInt`'s leading trim:
tab, LF, VT, FF, CR, space, NBSP, the Unicode `Zs` separators, the two
line separators and the BOM. -/
def jsWhitespace (c : Char) : Bool :=
  let n := c.toNat
  n == 9 || n == 10 || n == 11 || n == 12 || n == 13 || n == 32 ||
  n == 160 || n == 5760 || (decide (8192 ≤ n) && decide (n ≤ 8202)) ||
  n == 8232 || n == 8233 || n == 8239 || n == 8287 || n == 12288 || n == 65279

/-- The value of one digit character under the given radix (10 or 16):
`0`–`9` always, `a`–`f`/`A`–`F` only in radix 16. -/
def digitValInRadix (radix : Nat) (c : Char) : Option Nat :=
  let v : Option Nat :=
    if c.isDigit then some (c.toNat - 48)
    else if 97 ≤ c.toNat ∧ c.toNat ≤ 102 then some (c.toNat - 87)
    else if 65 ≤ c.toNat ∧ c.toNat ≤ 70 then some (c.toNat - 55)
    else none
  match v with
  | some d => if d < radix then some d else none
  | none => none

/-- JavaScript `parseInt` with no explicit radix: skip leading ECMAScript
whitespace, read an optional sign, switch to radix 16 when the remainder
starts with `0x`/`0X` (stripping the prefix), then read the longest run of
digits valid in the radix and ignore any trailing characters; `none` models
`NaN` (no digits read). -/
def jsParseInt (s : String) : Option Int :=
  let cs := s.toList.dropWhile jsWhitespace
  let signAndRest : Int × List Char :=
    match cs with
    | '-' :: rest => (-1, rest)
    | '+' :: rest => (1, rest)
    | _ => (1, cs)
  let radixAndRest : Nat × List Char :=
    match signAndRest.2 with
    | '0' :: 'x' :: rest => (16, rest)
    | '0' :: 'X' :: rest => (16, rest)
    | rest => (10, rest)
  let ds := radixAndRest.2.takeWhile (fun c => (digitValInRadix radixAndRest.1 c).isSome)
  if ds.isEmpty then none
  else some (signAndRest.1 *
    (ds.foldl (fun acc c => acc * radixAndRest.1 + (digitValInRadix radixAndRest.1 c).getD 0)
      0 : Nat))

/-- `parseInt(req.query.x) || default`: the default is used when the
parameter is absent, unparseable (`NaN`) or parses to the falsy `0`. -/
def queryParamOr (d : Int) (q : Option String) : Int :=
  match q with
  | none => d
  | some s =>
    match jsParseInt s with
    | none => d
    | some n => if n = 0 then d else n

structure HotParams where
  hours : Int
  limit : Int
  minVisits : Int
deriving DecidableEq

/-- The three query parameters with their defaults 24, 5 and 1. -/
def parseHotParams (hours limit minVisits : Option String) : HotParams :=
  ⟨queryParamOr 24 hours, queryParamOr 5 limit, queryParamOr 1 minVisits⟩

def msPerHour : Int := 1000 * 60 * 60

/-- `cutoffDate.setHours(getHours() - hours)`: the instant `hours` hours ago. -/
def cutoffDate (now hours : Int) : Int := now - hours * msPerHour

/-- `$match {createdAt: {$gte: cutoffDate}}`. -/
def recentTransitions (db : Db) (p : HotParams) (now : Int) : List TransitionR :=
  db.transitions.filter (fun t => decide (cutoffDate now p.hours ≤ t.createdAt))

/-- The `$group {_id: "$toNodeId"}` keys, in order of first occurrence. -/
def distinctToNodeIds (ts : List TransitionR) : List Nat :=
  ts.foldl (fun acc t => if t.toNodeId ∈ acc then acc else acc ++ [t.toNodeId]) []

/-- `$addToSet: "$userId"`: the distinct user ids of a group. -/
def distinctUsers (ts : List TransitionR) : List Nat :=
  ts.foldl (fun acc t => if t.userId ∈ acc then acc else acc ++ [t.userId]) []

/-- One `$group` accumulator row. -/
structure GroupStats where
  toNodeId : Nat
  totalVisits : Nat
  uniqueUsers : List Nat
  totalDuration : Rat
  lastActivity : Int
deriving DecidableEq

/-- The `$group` accumulators for one destination node. -/
def groupStats (ts : List TransitionR) (k : Nat) : GroupStats :=
  let g := ts.filter (fun t => t.toNodeId == k)
  { toNodeId := k
    totalVisits := g.length
    uniqueUsers := distinctUsers g
    totalDuration := g.foldl (fun acc t => acc + t.duration) 0
    lastActivity := g.foldl (fun acc t => max acc t.createdAt)
      ((g.head?.map (fun t => t.createdAt)).getD 0) }

/-- One row after `$lookup`/`$unwind`/`$project`. -/
structure AggEntry where
  roomKey : String
  totalVisits : Nat
  uniqueUsersCount : Nat
  avgDurationPerVisit : Rat
  lastActivity : Int
  createdAt : Int
deriving DecidableEq

/-- `$lookup` of the node document plus the `$project` stage; `$unwind`
drops a group whose node id no longer resolves. -/
def projectEntry (db : Db) (s : GroupStats) : Option AggEntry :=
  (findNodeById db s.toNodeId).map (fun n =>
    { roomKey := n.roomKey
      totalVisits := s.totalVisits
      uniqueUsersCount := s.uniqueUsers.length
      avgDurationPerVisit :=
        if s.totalVisits = 0 then 0 else s.totalDuration / (s.totalVisits : Rat)
      lastActivity := s.lastActivity
      createdAt := n.createdAt })

/-- The `$group` stage: one accumulator row per distinct destination node. -/
def groupByToNode (ts : List TransitionR) : List GroupStats :=
  (distinctToNodeIds ts).map (groupStats ts)

/-- The whole aggregation pipeline including the final
`$match {totalVisits: {$gte: minVisits}}`. -/
def aggregatedData (db : Db) (p : HotParams) (now : Int) : List AggEntry :=
  ((groupByToNode (recentTransitions db p now)).filterMap (projectEntry db)).filter
    (fun e => decide (p.minVisits ≤ (e.totalVisits : Int)))

/-- The curation score of one aggregated room, exactly as computed in the
endpoint (weights 0.5 / 0.8 / 0.3 / 1.2 / 0.5, normalisation caps
100 / 20 / 300, decay constants 12h and 24h). -/
noncomputable def score (now : Int) (e : AggEntry) : ℝ :=
  let normalizedVisits := min ((e.totalVisits : ℝ) / 100) 1
  let normalizedUsers := min ((e.uniqueUsersCount : ℝ) / 20) 1
  let normalizedDuration := min (((e.avgDurationPerVisit : Rat) : ℝ) / 300) 1
  let timeDiffHoursLastActivity := (((now - e.lastActivity : Int) : ℝ)) / (1000 * 60 * 60)
  let recencyScoreLastActivity := Real.exp (-timeDiffHoursLastActivity / 12)
  let timeDiffHoursCreatedAt := (((now - e.createdAt : Int) : ℝ)) / (1000 * 60 * 60)
  let recencyScoreCreatedAt := Real.exp (-timeDiffHoursCreatedAt / 24)
  normalizedVisits * 0.5 + normalizedUsers * 0.8 + normalizedDuration * 0.3 +
    recencyScoreLastActivity * 1.2 + recencyScoreCreatedAt * 0.5

/-- A `{...node, score}` row. -/
structure ScoredEntry where
  entry : AggEntry
  score : ℝ

noncomputable def scoredEntries (db : Db) (p : HotParams) (now : Int) :
    List ScoredEntry :=
  (aggregatedData db p now).map (fun e => ⟨e, score now e⟩)

/-- The comparator `(a, b) => b.score - a.score` of the stable
`Array.prototype.sort`, as the descending-score total preorder. -/
noncomputable def scoreLE (a b : ScoredEntry) : Bool := decide (b.score ≤ a.score)

/-- `.sort((a, b) => b.score - a.score)`: a stable descending sort. -/
noncomputable def sortedHotNodes (db : Db) (p : HotParams) (now : Int) :
    List ScoredEntry :=
  (scoredEntries db p now).mergeSort scoreLE

/-- `Array.prototype.slice(0, limit)`: a negative bound counts from the end. -/
def jsSlice0 (limit : Int) (l : List α) : List α :=
  if 0 ≤ limit then l.take limit.toNat else l.take (l.length - (-limit).toNat)

/-- The `/hot-nodes` response body: score, sort descending, keep the top
`limit`. -/
noncomputable def hotNodes (db : Db) (p : HotParams) (now : Int) : List ScoredEntry :=
  jsSlice0 p.limit (sortedHotNodes db p now)

/-- The scoring formula stated as in the specification text:
`min(totalVisits/100,1)*0.5 + min(uniqueUserCount/20,1)*0.8 +
min(avgDwellSeconds/300,1)*0.3 + exp(-hoursSince(lastActivity)/12)*1.2 +
exp(-hoursSince(roomCreatedAt)/24)*0.5`. -/
noncomputable def hoursSince (now t : Int) : ℝ := ((now - t : Int) : ℝ) / (1000 * 60 * 60)

noncomputable def specScore (now : Int) (e : AggEntry) : ℝ :=
  min ((e.totalVisits : ℝ) / 100) 1 * 0.5 +
  min ((e.uniqueUsersCount : ℝ) / 20) 1 * 0.8 +
  min (((e.avgDurationPerVisit : Rat) : ℝ) / 300) 1 * 0.3 +
  Real.exp (-(hoursSince now e.lastActivity) / 12) * 1.2 +
  Real.exp (-(hoursSince now e.createdAt) / 24) * 0.5

/-! ## Comparator facts for the two sorts -/

theorem scoreLE_trans : ∀ a b c : ScoredEntry, scoreLE a b → scoreLE b c → scoreLE a c := by
  intro a b c hab hbc
  simp only [scoreLE, decide_eq_true_eq] at *
  exact le_trans hbc hab

theorem scoreLE_total : ∀ a b : ScoredEntry, scoreLE a b || scoreLE b a := by
  intro a b
  simp only [scoreLE, Bool.or_eq_true, decide_eq_true_eq]
  exact le_total _ _

theorem msgLE_trans : ∀ a b c : MessageR, msgLE a b → msgLE b c → msgLE a c := by
  intro a b c hab hbc
  simp only [msgLE, decide_eq_true_eq] at *
  exact le_trans hab hbc

theorem msgLE_total : ∀ a b : MessageR, msgLE a b || msgLE b a := by
  intro a b
  simp only [msgLE, Bool.or_eq_true, decide_eq_true_eq]
  exact le_total _ _

/-! ## A saturated demo dataset for the ranking endpoint: one room, 100
transitions by 20 distinct users, 300 seconds dwell each, everything at
time `now = 0`. -/

def hotDemoNode : NodeR :=
  { id := 0, roomKey := "hot", createdAt := 0, lastActivityAt := 0 }

def hotDemoTransitions : List TransitionR :=
  (List.range 100).map (fun i =>
    { id := i, userId := i % 20, fromNodeId := none, toNodeId := 0,
      transitionType := none, createdAt := 0, duration := 300 })

def hotDemoDb : Db :=
  { nodes := [hotDemoNode], transitions := hotDemoTransitions, nextId := 100 }

/-- The defaults `windowHours = 24`, `limit = 5`, `minVisits = 1`. -/
def defaultParams : HotParams := ⟨24, 5, 1⟩

def hotDemoEntry : AggEntry :=
  { roomKey := "hot", totalVisits := 100, uniqueUsersCount := 20,
    avgDurationPerVisit := 300, lastActivity := 0, createdAt := 0 }

theorem foldl_add_const_duration (d : Rat) :
    ∀ (l : List TransitionR) (a : Rat), (∀ t ∈ l, t.duration = d) →
      l.foldl (fun acc t => acc + t.duration) a = a + l.length * d := by
  intro l
  induction l with
  | nil => intro a _; simp
  | cons x xs ih =>
    intro a h
    have hx : x.duration = d := h x (List.mem_cons_self x xs)
    have hxs : ∀ t ∈ xs, t.duration = d := fun t ht => h t (List.mem_cons_of_mem x ht)
    simp only [List.foldl_cons, hx, ih (a + d) hxs, List.length_cons]
    push_cast
    ring

theorem hotDemo_recent :
    recentTransitions hotDemoDb defaultParams 0 = hotDemoTransitions := by
  unfold recentTransitions
  apply List.filter_eq_self.mpr
  intro t ht
  simp only [hotDemoDb] at ht
  simp only [hotDemoTransitions, List.mem_map, List.mem_range] at ht
  obtain ⟨i, hi, rfl⟩ := ht
  show decide (cutoffDate 0 defaultParams.hours ≤ (0 : Int)) = true
  decide

set_option maxRecDepth 4000 in
theorem hotDemo_distinct : distinctToNodeIds hotDemoTransitions = [0] := by decide

set_option maxRecDepth 4000 in
theorem hotDemo_group_visits :
    (groupStats hotDemoTransitions 0).totalVisits = 100 := by decide

set_option maxRecDepth 4000 in
theorem hotDemo_group_users :
    (groupStats hotDemoTransitions 0).uniqueUsers.length = 20 := by decide

set_option maxRecDepth 4000 in
theorem hotDemo_group_last :
    (groupStats hotDemoTransitions 0).lastActivity = 0 := by decide

theorem hotDemo_group_duration :
    (groupStats hotDemoTransitions 0).totalDuration = 30000 := by
  show (List.filter _ hotDemoTransitions).foldl _ 0 = 30000
  rw [foldl_add_const_duration 300]
  · norm_num
    show ((List.filter _ hotDemoTransitions).length : Rat) * 300 = 30000
    have : (List.filter (fun t => t.toNodeId == 0) hotDemoTransitions).length = 100 := by
      decide
    rw [this]
    norm_num
  · intro t ht
    have := List.mem_filter.mp ht
    simp only [hotDemoTransitions, List.mem_map, List.mem_range] at this
    obtain ⟨⟨i, hi, rfl⟩, -⟩ := this
    rfl

theorem hotDemo_agg :
    aggregatedData hotDemoDb defaultParams 0 = [hotDemoEntry] := by
  unfold aggregatedData groupByToNode
  rw [hotDemo_recent, hotDemo_distinct]
  have hproj : projectEntry hotDemoDb (groupStats hotDemoTransitions 0) =
      some hotDemoEntry := by
    unfold projectEntry
    have hfind : findNodeById hotDemoDb (groupStats hotDemoTransitions 0).toNodeId =
        some hotDemoNode := by
      have : (groupStats hotDemoTransitions 0).toNodeId = 0 := rfl
      rw [this]
      decide
    rw [hfind]
    rw [Option.map_some']
    have hv := hotDemo_group_visits
    have hu := hotDemo_group_users
    have hl := hotDemo_group_last
    have hd := hotDemo_group_duration
    apply congrArg some
    show AggEntry.mk _ _ _ _ _ _ = hotDemoEntry
    unfold hotDemoEntry
    rw [AggEntry.mk.injEq]
    refine ⟨rfl, hv, hu, ?_, hl, rfl⟩
    rw [hv, hd]
    norm_num
  rw [List.map_cons, List.map_nil, List.filterMap_cons, hproj]
  rw [List.filterMap_nil]
  have : (defaultParams.minVisits ≤ (hotDemoEntry.totalVisits : Int)) := by decide
  simp [List.filter, this]

theorem hotDemo_score : score 0 hotDemoEntry = 33 / 10 := by
  unfold score hotDemoEntry
  norm_num [Real.exp_zero]

theorem score_eq_specScore (now : Int) (e : AggEntry) : score now e = specScore now e := rfl

theorem hotDemo_hotNodes :
    hotNodes hotDemoDb defaultParams 0 = [⟨hotDemoEntry, 33 / 10⟩] := by
  unfold hotNodes sortedHotNodes scoredEntries
  rw [hotDemo_agg]
  rw [List.map_cons, List.map_nil, List.mergeSort_singleton]
  rw [hotDemo_score]
  show jsSlice0 5 _ = _
  norm_num [jsSlice0, List.take]

/-- C1: every room group that survives the window and minVisits filters is
scored with the spec's fixed weighted sum
`min(totalVisits/100,1)*0.5 + min(uniqueUserCount/20,1)*0.8 +
min(avgDwellSeconds/300,1)*0.3 + exp(-hoursSince(lastActivity)/12)*1.2 +
exp(-hoursSince(createdAt)/24)*0.5`; on the saturated demo dataset
(totalVisits 100, 20 unique users, 300s average dwell, lastActivity and
createdAt both at `now`) the endpoint returns exactly that room with score
`3.3`.  The ranking is a pure function of the store, the parameters and
`now`, hence deterministic. -/
theorem hot_score_formula_and_example :
    (∀ (now : Int) (e : AggEntry), score now e = specScore now e) ∧
    (∀ (db : Db) (p : HotParams) (now : Int),
      scoredEntries db p now =
        (aggregatedData db p now).map (fun e => ⟨e, specScore now e⟩)) ∧
    hotNodes hotDemoDb defaultParams 0 = [⟨hotDemoEntry, 33 / 10⟩] ∧
    hotDemoEntry.totalVisits = 100 ∧ hotDemoEntry.uniqueUsersCount = 20 ∧
    hotDemoEntry.avgDurationPerVisit = 300 ∧ hotDemoEntry.lastActivity = 0 ∧
    hotDemoEntry.createdAt = 0 ∧ (33 / 10 : ℝ) = 0.5 + 0.8 + 0.3 + 1.2 + 0.5 :=
  ⟨score_eq_specScore, fun _ _ _ => rfl, hotDemo_hotNodes,
   rfl, rfl, rfl, rfl, rfl, by norm_num⟩

/-- C2: the endpoint's output is the stable descending-by-score sort of the
scored room groups, truncated to the top `limit` (for the endpoint's
meaningful nonnegative limits): the output has at most `limit` entries, is
exactly the `limit`-prefix of the sorted list, scores are descending, the
sorted list is a permutation of the scored groups, and two groups with equal
scores keep their original grouping order. -/
theorem hot_nodes_sorted_stable_limited (db : Db) (p : HotParams) (now : Int)
    (h : 0 ≤ p.limit) :
    ((hotNodes db p now).length : Int) ≤ p.limit ∧
    hotNodes db p now = (sortedHotNodes db p now).take p.limit.toNat ∧
    (sortedHotNodes db p now).Pairwise (fun a b => b.score ≤ a.score) ∧
    (hotNodes db p now).Pairwise (fun a b => b.score ≤ a.score) ∧
    (sortedHotNodes db p now).Perm (scoredEntries db p now) ∧
    (∀ a b : ScoredEntry, a.score = b.score →
      List.Sublist [a, b] (scoredEntries db p now) →
      List.Sublist [a, b] (sortedHotNodes db p now)) := by
  have htake : hotNodes db p now = (sortedHotNodes db p now).take p.limit.toNat := by
    unfold hotNodes jsSlice0
    rw [if_pos h]
  have hsorted : (sortedHotNodes db p now).Pairwise (fun a b => b.score ≤ a.score) := by
    have := List.sorted_mergeSort scoreLE_trans scoreLE_total (scoredEntries db p now)
    exact this.imp (fun hab => by simpa [scoreLE] using hab)
  refine ⟨?_, htake, hsorted, ?_, ?_, ?_⟩
  · rw [htake]
    have hlen := List.length_take p.limit.toNat (sortedHotNodes db p now)
    have := Int.toNat_of_nonneg h
    omega
  · rw [htake]
    exact hsorted.sublist (List.take_sublist _ _)
  · exact List.mergeSort_perm _ _
  · intro a b hab hsub
    exact List.pair_sublist_mergeSort scoreLE_trans scoreLE_total
      (by simp [scoreLE, hab.symm.le]) hsub

/-- Witness for C2 on the demo dataset with the default parameters. -/
theorem hot_nodes_sorted_stable_limited_witness :
    (0 : Int) ≤ defaultParams.limit ∧
    ((hotNodes hotDemoDb defaultParams 0).length : Int) ≤ defaultParams.limit :=
  ⟨by decide,
   (hot_nodes_sorted_stable_limited hotDemoDb defaultParams 0 (by decide)).1⟩

/-! ## Demo data for the history query: one room, 60 messages in ascending
insertion/time order. -/

def histDemoMessages : List MessageR :=
  (List.range 60).map (fun i =>
    { id := i, nodeId := 0, userId := 0, text := "", createdAt := (i : Int) })

def histDemoDb : Db :=
  { nodes := [hotDemoNode], messages := histDemoMessages, nextId := 60 }

/-- C3: `fetchHistory` returns the oldest at-most-`limit` messages of the
room in ascending `createdAt` order — the result is sorted ascending, has
`min limit count` entries, and is a prefix of the full ascending history
(which is a permutation of the room's stored messages); on a room holding
60 messages, the query with limit 50 returns exactly the 50 oldest
(messages 1–50), not the newest. -/
theorem fetch_history_oldest_window :
    (∀ (db : Db) (nodeId limit : Nat),
      (fetchHistory db nodeId limit).Pairwise (fun a b => a.createdAt ≤ b.createdAt) ∧
      (fetchHistory db nodeId limit).length =
        min limit (db.messages.filter (fun m => m.nodeId == nodeId)).length ∧
      fetchHistory db nodeId limit <+: roomMessagesAsc db nodeId ∧
      (roomMessagesAsc db nodeId).Perm (db.messages.filter (fun m => m.nodeId == nodeId))) ∧
    fetchHistory histDemoDb 0 50 = histDemoMessages.take 50 ∧
    (histDemoMessages.take 50).length = 50 := by
  refine ⟨fun db nodeId limit => ⟨?_, ?_, ?_, ?_⟩, ?_, ?_⟩
  · have hs := List.sorted_mergeSort msgLE_trans msgLE_total
      (db.messages.filter (fun m => m.nodeId == nodeId))
    have : (roomMessagesAsc db nodeId).Pairwise (fun a b => a.createdAt ≤ b.createdAt) :=
      hs.imp (fun hab => by simpa [msgLE] using hab)
    exact this.sublist (List.take_sublist _ _)
  · unfold fetchHistory
    rw [List.length_take]
    unfold roomMessagesAsc
    rw [List.length_mergeSort]
  · exact List.take_prefix _ _
  · exact List.mergeSort_perm _ _
  · have hfilter : histDemoDb.messages.filter (fun m => m.nodeId == 0) =
        histDemoMessages := by decide
    have hsorted : histDemoMessages.Pairwise (fun a b : MessageR => msgLE a b) := by
      decide
    unfold fetchHistory roomMessagesAsc
    rw [hfilter, List.mergeSort_of_sorted hsorted]
  · decide

/-! ## Frame effects of the join/transition operation -/

theorem resolveSourceRoom_found (db : Db) (key : String) (now : Int) (n : NodeR)
    (h : findNode db key = some n) : resolveSourceRoom db key now = (n, db) := by
  unfold resolveSourceRoom
  rw [h]

theorem resolveDestRoom_found (db : Db) (key : String) (creator : Nat) (now : Int)
    (n : NodeR) (h : findNode db key = some n) :
    resolveDestRoom db key creator now =
      (bumpVisit now n,
       { db with nodes := updateFirst (fun m => m.roomKey == key) (bumpVisit now) db.nodes }) := by
  unfold resolveDestRoom
  rw [h]

/-- C4: inside a `joinNodeAndLogTransition`, resolving the source room never
increments its `visitCount` and leaves its `lastActivityAt` (indeed its whole
record and the whole store) unchanged, while resolving the destination room
increments its `visitCount` by exactly one, sets its `lastActivityAt` to now,
and changes no other field; `creatorId` is set only when the destination is
first created, and a freshly created source room starts with `visitCount = 0`
and no creator.  Users and messages are untouched. -/
theorem join_room_frame (db : Db) (ev : JoinPayload) (now : Int) (uid : Nat)
    (fromKey toKey : String) (nF : NodeR)
    (hu : ev.userId = some uid) (hf : ev.fromNodeKey = some fromKey)
    (ht : ev.toNodeKey = some toKey)
    (hfne : fromKey ≠ "") (htne : toKey ≠ "") (hkne : fromKey ≠ toKey)
    (hF : findNode db fromKey = some nF) :
    (∀ (db2 : Db) (key : String) (now2 : Int) (n : NodeR), findNode db2 key = some n →
      resolveSourceRoom db2 key now2 = (n, db2)) ∧
    (∀ (db2 : Db) (key : String) (now2 : Int), findNode db2 key = none →
      (resolveSourceRoom db2 key now2).1.visitCount = 0 ∧
      (resolveSourceRoom db2 key now2).1.creatorId = none) ∧
    findNode (joinNodeAndLogTransition db ev now).1 fromKey = some nF ∧
    (joinNodeAndLogTransition db ev now).1.users = db.users ∧
    (joinNodeAndLogTransition db ev now).1.messages = db.messages ∧
    (∀ nT : NodeR, findNode db toKey = some nT →
      findNode (joinNodeAndLogTransition db ev now).1 toKey =
        some { nT with visitCount := nT.visitCount + 1, lastActivityAt := now }) ∧
    (findNode db toKey = none →
      ∃ nNew : NodeR, findNode (joinNodeAndLogTransition db ev now).1 toKey = some nNew ∧
        nNew.visitCount = 1 ∧ nNew.lastActivityAt = now ∧
        nNew.creatorId = some uid ∧ nNew.createdAt = now) := by
  refine ⟨resolveSourceRoom_found, ?_, ?_⟩
  · intro db2 key now2 h0
    unfold resolveSourceRoom
    rw [h0]
    exact ⟨rfl, rfl⟩
  have hjoin : joinNodeAndLogTransition db ev now =
      (let fr := resolveFrom db ev.fromNodeKey now
       let dest := resolveDestRoom fr.2 toKey uid now
       let t : TransitionR :=
         { id := dest.2.nextId, userId := uid,
           fromNodeId := fr.1.map (fun n => n.id), toNodeId := dest.1.id,
           transitionType := ev.transitionType, createdAt := now,
           duration := ev.duration }
       let db3 :=
         { dest.2 with transitions := dest.2.transitions ++ [t],
                       nextId := dest.2.nextId + 1 }
       (db3,
        match formatHistory db3 (fetchHistory db3 dest.1.id 50) with
        | some items => [Reply.history items]
        | none => [])) := by
    unfold joinNodeAndLogTransition
    rw [hu, ht]
    simp only [if_neg htne]
  have hfr : resolveFrom db ev.fromNodeKey now = (some nF, db) := by
    rw [hf]
    simp only [resolveFrom]
    rw [if_neg hfne, resolveSourceRoom_found db fromKey now nF hF]
  rw [hjoin]
  simp only [hfr]
  have hbeq_ne : ∀ a : NodeR, (a.roomKey == toKey) = true → (a.roomKey == fromKey) = false := by
    intro a ha
    have h1 : a.roomKey = toKey := by simpa using ha
    have h2 : ¬ (toKey = fromKey) := fun h => hkne h.symm
    simp [h1, h2]
  have hbump_key : ∀ a : NodeR, ((bumpVisit now a).roomKey == fromKey) = (a.roomKey == fromKey) :=
    fun a => rfl
  have hbump_keyT : ∀ a : NodeR, ((bumpVisit now a).roomKey == toKey) = (a.roomKey == toKey) :=
    fun a => rfl
  have hFu : db.nodes.find? (fun n => n.roomKey == fromKey) = some nF := hF
  cases hT : findNode db toKey with
  | some nT =>
    rw [resolveDestRoom_found db toKey uid now nT hT]
    have hTu : db.nodes.find? (fun n => n.roomKey == toKey) = some nT := hT
    refine ⟨?_, rfl, rfl, ?_, ?_⟩
    · show (updateFirst (fun m => m.roomKey == toKey) (bumpVisit now) db.nodes).find?
        (fun m => m.roomKey == fromKey) = some nF
      rw [find?_updateFirst_of_disjoint hbeq_ne hbump_key]
      exact hFu
    · intro nT' hT'
      injection hT' with hEq
      subst hEq
      show (updateFirst (fun m => m.roomKey == toKey) (bumpVisit now) db.nodes).find?
        (fun m => m.roomKey == toKey) = _
      rw [find?_updateFirst_self hbump_keyT, hTu]
      rfl
    · intro h0
      simp at h0
  | none =>
    have hdest : resolveDestRoom db toKey uid now =
        (freshDestNode db.nextId toKey uid now,
         { db with nodes := db.nodes ++ [freshDestNode db.nextId toKey uid now],
                   nextId := db.nextId + 1 }) := by
      unfold resolveDestRoom
      rw [hT]
    rw [hdest]
    refine ⟨?_, rfl, rfl, ?_, ?_⟩
    · show (db.nodes ++ [freshDestNode db.nextId toKey uid now]).find?
        (fun m => m.roomKey == fromKey) = some nF
      rw [List.find?_append, hFu]
      rfl
    · intro nT' hT'
      simp at hT'
    · intro _
      refine ⟨freshDestNode db.nextId toKey uid now, ?_, rfl, rfl, rfl, rfl⟩
      show (db.nodes ++ [freshDestNode db.nextId toKey uid now]).find?
        (fun m => m.roomKey == toKey) = _
      have hTu : db.nodes.find? (fun n => n.roomKey == toKey) = none := hT
      rw [List.find?_append, hTu]
      simp [freshDestNode]

/-! Demo store for the join frame effects: rooms "A" and "B". -/

def c4NodeA : NodeR :=
  { id := 0, roomKey := "A", createdAt := 0, lastActivityAt := 0, visitCount := 3 }

def c4NodeB : NodeR :=
  { id := 1, roomKey := "B", createdAt := 0, lastActivityAt := 0, visitCount := 7 }

def c4DemoDb : Db := { nodes := [c4NodeA, c4NodeB], nextId := 2 }

def c4DemoEv : JoinPayload :=
  { userId := some 5, fromNodeKey := some "A", toNodeKey := some "B" }

/-- Witness for C4: moving from room "A" to room "B" leaves "A" untouched and
bumps exactly "B". -/
theorem join_room_frame_witness :
    findNode (joinNodeAndLogTransition c4DemoDb c4DemoEv 9).1 "A" = some c4NodeA ∧
    (joinNodeAndLogTransition c4DemoDb c4DemoEv 9).1.users = c4DemoDb.users ∧
    findNode (joinNodeAndLogTransition c4DemoDb c4DemoEv 9).1 "B" =
      some { c4NodeB with visitCount := c4NodeB.visitCount + 1, lastActivityAt := 9 } := by
  have h := join_room_frame c4DemoDb c4DemoEv 9 5 "A" "B" c4NodeA rfl rfl rfl
    (by decide) (by decide) (by decide) (by decide)
  exact ⟨h.2.2.1, h.2.2.2.1, h.2.2.2.2.2.1 c4NodeB (by decide)⟩

/-! ## Identity registry properties -/

/-- C5: `userSetup` is idempotent on identity.  Two calls with the same
`localId` create at most one record (the first call leaves `max count 1`
records with that token and the second call creates none); the second call's
nickname and `lastSeenAt` override the first's; each attribution field is
overwritten exactly when the second call supplies it non-empty
(last-write-wins) and otherwise keeps its value from after the first call. -/
theorem establish_session_idempotent (db : Db) (tok n1 n2 : String)
    (utm1 utm2 : Option Utm) (t1 t2 : Int) :
    countLocal (userSetup db tok n1 utm1 t1).1 tok = max (countLocal db tok) 1 ∧
    countLocal (userSetup (userSetup db tok n1 utm1 t1).1 tok n2 utm2 t2).1 tok =
      countLocal (userSetup db tok n1 utm1 t1).1 tok ∧
    ∃ u1 u2 : UserR,
      findUserByLocalId (userSetup db tok n1 utm1 t1).1 tok = some u1 ∧
      findUserByLocalId (userSetup (userSetup db tok n1 utm1 t1).1 tok n2 utm2 t2).1 tok =
        some u2 ∧
      u2.nickname = n2 ∧ u2.lastSeenAt = t2 ∧
      u2.utmSource = updField utm2 (fun x => x.source) u1.utmSource ∧
      u2.utmMedium = updField utm2 (fun x => x.medium) u1.utmMedium ∧
      u2.utmCampaign = updField utm2 (fun x => x.campaign) u1.utmCampaign ∧
      u2.utmContent = updField utm2 (fun x => x.content) u1.utmContent ∧
      u2.utmTerm = updField utm2 (fun x => x.term) u1.utmTerm := by
  refine ⟨userSetup_count db tok n1 utm1 t1, ?_, ?_⟩
  · rw [userSetup_count, userSetup_count db tok n1 utm1 t1, max_assoc, max_self]
  · have h1 := userSetup_find db tok n1 utm1 t1
    have h2 := userSetup_find (userSetup db tok n1 utm1 t1).1 tok n2 utm2 t2
    rw [h1] at h2
    exact ⟨_, _, h1, h2, rfl, rfl, rfl, rfl, rfl, rfl, rfl⟩

/-- C10: a `userSetup` whose token already names a user never changes that
record's `createdAt`, `localId` or `id`; the stored record afterwards is the
old one with `nickname` and `lastSeenAt` overwritten and each attribution
field overwritten exactly when supplied non-empty. -/
theorem establish_session_existing_frame (db : Db) (tok n : String) (utm : Option Utm)
    (t : Int) (u0 : UserR) (h : findUserByLocalId db tok = some u0) :
    findUserByLocalId (userSetup db tok n utm t).1 tok =
      some (applyUserUpdate u0 n t utm) ∧
    (applyUserUpdate u0 n t utm).createdAt = u0.createdAt ∧
    (applyUserUpdate u0 n t utm).localId = u0.localId ∧
    (applyUserUpdate u0 n t utm).id = u0.id ∧
    (applyUserUpdate u0 n t utm).nickname = n ∧
    (applyUserUpdate u0 n t utm).lastSeenAt = t ∧
    (applyUserUpdate u0 n t utm).utmSource = updField utm (fun x => x.source) u0.utmSource ∧
    (applyUserUpdate u0 n t utm).utmMedium = updField utm (fun x => x.medium) u0.utmMedium ∧
    (applyUserUpdate u0 n t utm).utmCampaign =
      updField utm (fun x => x.campaign) u0.utmCampaign ∧
    (applyUserUpdate u0 n t utm).utmContent = updField utm (fun x => x.content) u0.utmContent ∧
    (applyUserUpdate u0 n t utm).utmTerm = updField utm (fun x => x.term) u0.utmTerm := by
  have h1 := userSetup_find db tok n utm t
  rw [h] at h1
  exact ⟨h1, rfl, rfl, rfl, rfl, rfl, rfl, rfl, rfl, rfl, rfl⟩

def c10DemoUser : UserR :=
  { id := 0, localId := "tok", nickname := "old", createdAt := 5, lastSeenAt := 5,
    utmSource := some "ads", utmMedium := some "cpc" }

def c10DemoDb : Db := { users := [c10DemoUser], nextId := 1 }

/-- The second session's attribution: an empty `source` (falsy, must not
overwrite), a fresh `campaign` (must overwrite), nothing else. -/
def c10DemoUtm : Utm := { source := some "", campaign := some "newcamp" }

/-- Witness for C10: the re-setup overwrites nickname, `lastSeenAt` and the
supplied non-empty campaign, keeps `createdAt`, `localId`, `id`, the stored
source and medium. -/
theorem establish_session_existing_frame_witness :
    findUserByLocalId (userSetup c10DemoDb "tok" "new" (some c10DemoUtm) 9).1 "tok" =
      some (applyUserUpdate c10DemoUser "new" 9 (some c10DemoUtm)) ∧
    (applyUserUpdate c10DemoUser "new" 9 (some c10DemoUtm)).createdAt =
      c10DemoUser.createdAt ∧
    (applyUserUpdate c10DemoUser "new" 9 (some c10DemoUtm)).localId = c10DemoUser.localId := by
  have h := establish_session_existing_frame c10DemoDb "tok" "new" (some c10DemoUtm) 9
    c10DemoUser (by decide)
  exact ⟨h.1, h.2.1, h.2.2.1⟩

/-! ## Recommendation exclusion -/

theorem getD_mem (l : List α) (i : Nat) (d : α) (hd : d ∈ l) : l.getD i d ∈ l := by
  rcases h : l[i]? with _ | a
  · rw [List.getD_eq_getElem?_getD, h]
    exact hd
  · rw [List.getD_eq_getElem?_getD, h]
    exact List.getElem?_mem h

/-- C6: whatever room the sample picks, `getRecommendation` never replies
with the requesting room's own key; when no room with a different key exists
the reply is the explicit `recommendedKey: null` signal, which is
distinguishable from every successful recommendation. -/
theorem recommendation_excludes_current (db : Db) (x : String) (pick : Nat) (k : String) :
    (getRecommendation db x pick = Reply.recommendationResult (some k) → k ≠ x) ∧
    (db.nodes.filter (fun n => !(n.roomKey == x)) = [] →
      getRecommendation db x pick = Reply.recommendationResult none) ∧
    (∀ k2 : String, Reply.recommendationResult none ≠ Reply.recommendationResult (some k2)) := by
  unfold getRecommendation
  cases hc : db.nodes.filter (fun n => !(n.roomKey == x)) with
  | nil =>
    refine ⟨?_, fun _ => rfl, fun k2 h => by injection h with h2; cases h2⟩
    intro he
    injection he with h2
    cases h2
  | cons c cs =>
    refine ⟨?_, ?_, fun k2 h => by injection h with h2; cases h2⟩
    · intro he
      injection he with h2
      injection h2 with h3
      have hmem : (c :: cs).getD (pick % (c :: cs).length) c ∈ c :: cs :=
        getD_mem _ _ _ (List.mem_cons_self c cs)
      have hmem2 : (c :: cs).getD (pick % (c :: cs).length) c ∈
          db.nodes.filter (fun n => !(n.roomKey == x)) := by
        rw [hc]
        exact hmem
      have hne := (List.mem_filter.mp hmem2).2
      simp only [Bool.not_eq_true'] at hne
      intro hkx
      rw [hkx] at h3
      rw [h3] at hne
      simp at hne
    · intro h0
      exact absurd h0 (List.cons_ne_nil c cs)

def ghostRoom : NodeR := { id := 0, roomKey := "room", createdAt := 0, lastActivityAt := 0 }

def ghostDb : Db := { nodes := [ghostRoom], nextId := 1 }

/-- Witness for C6: with rooms "A" and "B" the recommendation for "A" is "B"
(never "A" itself); with "room" as the only room the reply is the null
signal. -/
theorem recommendation_excludes_current_witness :
    getRecommendation c4DemoDb "A" 0 = Reply.recommendationResult (some "B") ∧
    "B" ≠ "A" ∧
    getRecommendation ghostDb "room" 0 = Reply.recommendationResult none :=
  ⟨by decide, (recommendation_excludes_current c4DemoDb "A" 0 "B").1 (by decide),
   (recommendation_excludes_current ghostDb "room" 0 "B").2.1 (by decide)⟩

/-! ## What a persisted message references -/

def ghostEv : MessagePayload := { userId := some 7, nodeKey := some "room", text := "hi" }

def ghostMsg : MessageR := { id := 1, nodeId := 0, userId := 7, text := "hi", createdAt := 0 }

/-- Counterexample to C7 as stated: with one room and an empty users
collection, a `sendMessage` carrying a well-formed but unknown `userId = 7`
persists a message whose `userId` references no existing User record —
`sendMessage` checks only that the room exists and that `userId` is
present, never that the user exists. -/
theorem message_dangling_user_counterexample :
    ghostMsg ∈ (sendMessage ghostDb ghostEv 0).1.messages ∧
    ghostMsg ∉ ghostDb.messages ∧
    (∃ nd ∈ ghostDb.nodes, nd.id = ghostMsg.nodeId) ∧
    ¬ (∃ u ∈ (sendMessage ghostDb ghostEv 0).1.users, u.id = ghostMsg.userId) := by
  decide

/-- The store after a `sendMessage` that resolved a room `n` and carries a
`userId`: the new message row is appended and the room's counters bumped,
whether or not the sender lookup for the broadcast succeeds. -/
theorem sendMessage_persists (db : Db) (ev : MessagePayload) (now : Int)
    (uid : Nat) (n : NodeR) (hu : ev.userId = some uid)
    (hnode : (match ev.nodeKey with
              | some k => findNode db k
              | none => db.nodes.head?) = some n) :
    (sendMessage db ev now).1 =
      { db with
          messages := db.messages ++
            [{ id := db.nextId, nodeId := n.id, userId := uid,
               text := ev.text, createdAt := now }],
          nextId := db.nextId + 1,
          nodes := updateFirst (fun m2 => m2.id == n.id) (bumpMessage now) db.nodes } := by
  unfold sendMessage
  simp only [hnode, hu]
  cases hfu : findUserById _ uid <;> rfl

theorem head?_mem {l : List α} {a : α} (h : l.head? = some a) : a ∈ l := by
  obtain ⟨ys, rfl⟩ := List.head?_eq_some_iff.mp h
  exact List.mem_cons_self a ys

/-- C7 (amended): every Message created by `sendMessage` has a `nodeId`
referencing a Room that already existed before the call — the handler never
creates a room, and the room collection's size is unchanged — and carries
exactly the `userId` supplied in the event; the existence of a User with
that id is not verified.  The referenced room is the one named by `nodeKey`
when a key is supplied, and the collection's first room when the key is
absent (Mongoose strips the `undefined` filter, turning the lookup into
`findOne({})`). -/
theorem message_references_amended (db : Db) (ev : MessagePayload) (now : Int)
    (m : MessageR) (hm : m ∈ (sendMessage db ev now).1.messages) (hnew : m ∉ db.messages) :
    (∃ n : NodeR, n ∈ db.nodes ∧ n.id = m.nodeId ∧
      (match ev.nodeKey with
       | some k => findNode db k = some n
       | none => db.nodes.head? = some n)) ∧
    (sendMessage db ev now).1.nodes.length = db.nodes.length ∧
    (∃ uid : Nat, ev.userId = some uid ∧ m.userId = uid) := by
  cases hk : ev.nodeKey with
  | none =>
    cases hh : db.nodes.head? with
    | none =>
      have hdrop : sendMessage db ev now = (db, []) := by
        unfold sendMessage
        rw [hk]
        simp only [hh]
        cases ev.userId <;> rfl
      rw [hdrop] at hm
      exact absurd hm hnew
    | some n =>
      cases hu : ev.userId with
      | none =>
        have hdrop : sendMessage db ev now = (db, []) := by
          unfold sendMessage
          rw [hk]
          simp only [hh]
          rw [hu]
        rw [hdrop] at hm
        exact absurd hm hnew
      | some uid =>
        have hnode : (match ev.nodeKey with
            | some k2 => findNode db k2
            | none => db.nodes.head?) = some n := by
          rw [hk]
          exact hh
        have hsend := sendMessage_persists db ev now uid n hu hnode
        rw [hsend] at hm
        simp only [List.mem_append, List.mem_singleton] at hm
        rcases hm with hm | hm
        · exact absurd hm hnew
        · subst hm
          refine ⟨⟨n, head?_mem hh, rfl, rfl⟩, ?_, ⟨uid, rfl, rfl⟩⟩
          rw [hsend]
          exact length_updateFirst _ _ db.nodes
  | some k =>
    cases hn : findNode db k with
    | none =>
      have hdrop : sendMessage db ev now = (db, []) := by
        unfold sendMessage
        rw [hk]
        simp only [hn]
        cases ev.userId <;> rfl
      rw [hdrop] at hm
      exact absurd hm hnew
    | some n =>
      cases hu : ev.userId with
      | none =>
        have hdrop : sendMessage db ev now = (db, []) := by
          unfold sendMessage
          rw [hk]
          simp only [hn]
          rw [hu]
        rw [hdrop] at hm
        exact absurd hm hnew
      | some uid =>
        have hnode : (match ev.nodeKey with
            | some k2 => findNode db k2
            | none => db.nodes.head?) = some n := by
          rw [hk]
          exact hn
        have hsend := sendMessage_persists db ev now uid n hu hnode
        rw [hsend] at hm
        simp only [List.mem_append, List.mem_singleton] at hm
        rcases hm with hm | hm
        · exact absurd hm hnew
        · subst hm
          refine ⟨⟨n, List.mem_of_find?_eq_some hn, rfl, hn⟩, ?_, ⟨uid, rfl, rfl⟩⟩
          rw [hsend]
          exact length_updateFirst _ _ db.nodes

def c7User : UserR :=
  { id := 5, localId := "u", nickname := "nick", createdAt := 0, lastSeenAt := 0 }

def c7Db : Db := { users := [c7User], nodes := [ghostRoom], nextId := 9 }

def c7Ev : MessagePayload := { userId := some 5, nodeKey := some "room", text := "yo" }

def c7Msg : MessageR := { id := 9, nodeId := 0, userId := 5, text := "yo", createdAt := 3 }

def c7EvNoKey : MessagePayload := { userId := some 5, nodeKey := none, text := "yo" }

/-- Witness for the amended C7 on a fully populated store, exercising both
the named-key path and the absent-key path (where the first stored room is
resolved). -/
theorem message_references_amended_witness :
    ((∃ n : NodeR, n ∈ c7Db.nodes ∧ n.id = c7Msg.nodeId ∧
        (match c7Ev.nodeKey with
         | some k => findNode c7Db k = some n
         | none => c7Db.nodes.head? = some n)) ∧
      (sendMessage c7Db c7Ev 3).1.nodes.length = c7Db.nodes.length ∧
      (∃ uid : Nat, c7Ev.userId = some uid ∧ c7Msg.userId = uid)) ∧
    ((∃ n : NodeR, n ∈ c7Db.nodes ∧ n.id = c7Msg.nodeId ∧
        (match c7EvNoKey.nodeKey with
         | some k => findNode c7Db k = some n
         | none => c7Db.nodes.head? = some n)) ∧
      (sendMessage c7Db c7EvNoKey 3).1.nodes.length = c7Db.nodes.length ∧
      (∃ uid : Nat, c7EvNoKey.userId = some uid ∧ c7Msg.userId = uid)) :=
  ⟨message_references_amended c7Db c7Ev 3 c7Msg (by decide) (by decide),
   message_references_amended c7Db c7EvNoKey 3 c7Msg (by decide) (by decide)⟩

/-! ## Silent drop of invalid events -/

/-- C8: a `joinNodeAndLogTransition` with a missing (or JS-falsy) `userId` or
`toNodeKey`, and a `sendMessage` with a missing `userId` or naming a room key
with no existing Room, mutate nothing in any collection and emit no reply.
(A `sendMessage` with `userId` present but no `nodeKey` at all is a different
case, not covered by the claim: there the stripped-`undefined` lookup
resolves the first stored room and the message is persisted, see C7.) -/
theorem invalid_events_dropped (db : Db) (ev : JoinPayload) (ev2 : MessagePayload)
    (now : Int) :
    ((ev.userId = none ∨ ev.toNodeKey = none ∨ ev.toNodeKey = some "") →
      joinNodeAndLogTransition db ev now = (db, [])) ∧
    ((ev2.userId = none ∨ (∃ k, ev2.nodeKey = some k ∧ findNode db k = none)) →
      sendMessage db ev2 now = (db, [])) := by
  constructor
  · rintro (h | h | h)
    · cases h2 : ev.toNodeKey <;> simp [joinNodeAndLogTransition, h, h2]
    · cases h2 : ev.userId <;> simp [joinNodeAndLogTransition, h, h2]
    · cases h2 : ev.userId with
      | none => simp [joinNodeAndLogTransition, h, h2]
      | some uid =>
        unfold joinNodeAndLogTransition
        rw [h, h2]
        simp
  · rintro (h | ⟨k, hk, hn⟩)
    · cases hk : ev2.nodeKey with
      | none => cases hh : db.nodes.head? <;> simp [sendMessage, h, hk, hh]
      | some k => cases hn : findNode db k <;> simp [sendMessage, h, hk, hn]
    · cases hu : ev2.userId <;> simp [sendMessage, hk, hu, hn]

def c8JoinEv : JoinPayload := { userId := none, toNodeKey := some "B" }

def c8MsgEv : MessagePayload := { userId := some 7, nodeKey := some "ghost", text := "hi" }

/-- Witness for C8: a join without `userId` and a message naming a
nonexistent room both leave the store untouched and reply nothing. -/
theorem invalid_events_dropped_witness :
    joinNodeAndLogTransition c4DemoDb c8JoinEv 0 = (c4DemoDb, []) ∧
    sendMessage c4DemoDb c8MsgEv 0 = (c4DemoDb, []) :=
  ⟨(invalid_events_dropped c4DemoDb c8JoinEv c8MsgEv 0).1 (Or.inl rfl),
   (invalid_events_dropped c4DemoDb c8JoinEv c8MsgEv 0).2
     (Or.inr ⟨"ghost", rfl, by decide⟩)⟩

/-! ## Query-parameter fallback of the hot-nodes endpoint -/

/-- Counterexample to C9 as stated: an out-of-range numeric parameter does
not fall back to the default — `hours=-5` is parsed and used as `-5`
(`parseInt(x) || default` falls back only on `NaN` and on `0`), and the same
happens for a negative `limit`. -/
theorem hot_params_negative_used_as_given :
    queryParamOr 24 (some "-5") = -5 ∧ queryParamOr 24 (some "-5") ≠ 24 ∧
    (parseHotParams (some "-5") none none).hours = -5 ∧
    (parseHotParams none (some "-1") none).limit = -1 := by decide

/-- C9 (amended): an absent parameter, an unparseable (`NaN`) parameter, or
a parameter parsing to the falsy `0` falls back to the defaults 24, 5 and 1;
every other parsed leading integer — including negative, out-of-range
values — is used exactly as given. -/
theorem hot_params_fallback_amended :
    (∀ d : Int, queryParamOr d none = d) ∧
    (∀ (d : Int) (s : String), jsParseInt s = none → queryParamOr d (some s) = d) ∧
    (∀ (d : Int) (s : String), jsParseInt s = some 0 → queryParamOr d (some s) = d) ∧
    (∀ (d : Int) (s : String) (n : Int), jsParseInt s = some n → n ≠ 0 →
      queryParamOr d (some s) = n) ∧
    (∀ hs ls ms : Option String,
      parseHotParams hs ls ms =
        ⟨queryParamOr 24 hs, queryParamOr 5 ls, queryParamOr 1 ms⟩) := by
  refine ⟨fun d => rfl, ?_, ?_, ?_, fun hs ls ms => rfl⟩
  · intro d s h
    show (match jsParseInt s with
      | none => d
      | some n => if n = 0 then d else n) = d
    rw [h]
  · intro d s h
    show (match jsParseInt s with
      | none => d
      | some n => if n = 0 then d else n) = d
    rw [h]
    simp
  · intro d s n h hn
    show (match jsParseInt s with
      | none => d
      | some n2 => if n2 = 0 then d else n2) = n
    rw [h]
    show (if n = 0 then d else n) = n
    rw [if_neg hn]

/-- Witness for the amended C9 on representative inputs: unparseable falls
back, `0` falls back, a negative value is used as given, and so are a
hexadecimal `0x10` (parsed as 16 by `parseInt`'s auto-radix) and a value
preceded by a non-breaking space. -/
theorem hot_params_fallback_amended_witness :
    jsParseInt "abc" = none ∧ queryParamOr 24 (some "abc") = 24 ∧
    jsParseInt "0" = some 0 ∧ queryParamOr 5 (some "0") = 5 ∧
    jsParseInt "-5" = some (-5) ∧ queryParamOr 1 (some "-5") = -5 ∧
    jsParseInt "0x10" = some 16 ∧ queryParamOr 24 (some "0x10") = 16 ∧
    jsParseInt " 42" = some 42 ∧ queryParamOr 5 (some " 42") = 42 :=
  ⟨by decide, hot_params_fallback_amended.2.1 24 "abc" (by decide), by decide,
   hot_params_fallback_amended.2.2.1 5 "0" (by decide), by decide,
   hot_params_fallback_amended.2.2.2.1 1 "-5" (-5) (by decide) (by decide), by decide,
   hot_params_fallback_amended.2.2.2.1 24 "0x10" 16 (by decide) (by decide), by decide,
   hot_params_fallback_amended.2.2.2.1 5 " 42" 42 (by decide) (by decide)⟩

end NodeChat
